import Mathlib

/-!
Verification of the text-editing core of `src/main.cpp` (stb_textedit +
msdf-atlas based text box): the dynamic text buffer callbacks
(`insert_chars`, `delete_chars`), the text measurer (`getTextSize`),
the row-layout callback (`layout_func`), the per-character width callback
(`get_width_func`) and the quad builder (`createTextTexture`).

Machine floating point (`double` / `float`) is modelled by exact rational
arithmetic `ℚ`; the claims under study are about the *structure* of the
arithmetic, not about rounding of binary floating point.
-/

set_option autoImplicit false

/-! ### Dynamic text buffer (`text_control::string`, main.cpp lines 116-124)

`insert_chars` and `delete_chars` delegate to `std::string::insert` /
`std::string::erase`.  Both of those throw `std::out_of_range` when
`pos > size()` (before any mutation); `erase` clamps the erased count to
`size() - pos`.  The C++ exception is modelled as `Except.error`; the
byte storage is a `List Char` together with an abstract `capacity`. -/

inductive StrErr where
  | outOfRange
deriving DecidableEq, Repr

structure Buffer where
  data : List Char
  capacity : Nat
deriving DecidableEq, Repr

/-- Model of `insert_chars` (main.cpp 121-124): `str->string.insert(pos, newtext, num)`.
Inserts the first `num` characters of `newtext` at `pos`; throws
(`.error .outOfRange`) when `pos > length`, before touching the storage.
The capacity-growth arithmetic of `std::string` is implementation defined;
it is modelled by the doubling policy of spec section 3 (no claim under
study depends on the exact grown value).  The C++ `return 1` on success is
dropped: success of the `Except` is the return. -/
def insert_chars (buf : Buffer) (pos : Nat) (newtext : List Char) (num : Nat) :
    Except StrErr Buffer :=
  if buf.data.length < pos then .error .outOfRange
  else
    let inserted := newtext.take num
    let newData := buf.data.take pos ++ inserted ++ buf.data.drop pos
    .ok { data := newData
        , capacity :=
            if newData.length ≤ buf.capacity then buf.capacity
            else max (2 * buf.capacity) newData.length }

/-- Model of `delete_chars` (main.cpp 116-119): `str->string.erase(pos, num)`.
Throws when `pos > length`; otherwise erases `min num (length - pos)`
characters starting at `pos` (`std::string::erase` clamps the count) and
never reallocates. -/
def delete_chars (buf : Buffer) (pos num : Nat) : Except StrErr Buffer :=
  if buf.data.length < pos then .error .outOfRange
  else .ok { data := buf.data.take pos ++ buf.data.drop (pos + num)
           , capacity := buf.capacity }

/-- Buffer state after a call to `insert_chars`: the new buffer on success,
the untouched input buffer when the call threw (the C++ exception is raised
before any mutation, so the referenced string is left in its prior state). -/
def afterInsert (buf : Buffer) (pos : Nat) (newtext : List Char) (num : Nat) : Buffer :=
  match insert_chars buf pos newtext num with
  | .ok b => b
  | .error _ => buf

/-- Buffer state after a call to `delete_chars` (see `afterInsert`). -/
def afterDelete (buf : Buffer) (pos num : Nat) : Buffer :=
  match delete_chars buf pos num with
  | .ok b => b
  | .error _ => buf

/-! ### Glyph metrics provider

Modelled from the spec: the external `GlyphMetricsProvider`
(`msdf_atlas::FontGeometry`, an external dependency, spec section 2):
per-character glyph lookup with advance / plane bounds / atlas bounds,
pairwise kerning, and the font-wide metrics `ascenderY`, `descenderY`,
`lineHeight`. -/

structure Glyph where
  advance : ℚ
  planeL : ℚ
  planeB : ℚ
  planeR : ℚ
  planeT : ℚ
  atlasL : ℚ
  atlasB : ℚ
  atlasR : ℚ
  atlasT : ℚ
deriving DecidableEq, Repr

structure FontGeometry where
  glyph : Char → Option Glyph
  kerning : Char → Char → Option ℚ
  ascenderY : ℚ
  descenderY : ℚ
  lineHeight : ℚ

/-- Modelled from the spec: `FontGeometry::getAdvance(advance, c1, c2)` of the
external provider — "given a character and an optional next character, yields
the glyph's advance width and, for the pair, a kerning-adjusted advance".
When the first character's glyph is missing the output parameter `advance`
is left unchanged (the lookup fails and the caller's value survives). -/
def FontGeometry.getAdvance (fg : FontGeometry) (advance : ℚ) (c1 c2 : Char) : ℚ :=
  match fg.glyph c1 with
  | none => advance
  | some g => g.advance + (fg.kerning c1 c2).getD 0

/-- Glyph lookup with the `'?'` fallback used by both the measurer
(main.cpp 230-233) and the quad builder (main.cpp 321-323). -/
def resolveGlyph (fg : FontGeometry) (c : Char) : Option Glyph :=
  match fg.glyph c with
  | some g => some g
  | none => fg.glyph '?'

/-- Model of `getFontHeight` (main.cpp 184-196): returns the hard-coded constant 24,
independent of the loaded font's metrics. -/
def getFontHeight : ℤ := 24

/-- Scale factor `fsScale` as computed in both `getTextSize` (line 209) and
`createTextTexture` (line 268): `24.0 / (ascenderY - descenderY)`. -/
def fsScale (fg : FontGeometry) : ℚ :=
  24 / (fg.ascenderY - fg.descenderY)

/-- The scaled line height `fsScale * metrics.lineHeight` (lines 210, 295). -/
def scaledLineHeight (fg : FontGeometry) : ℚ :=
  fsScale fg * fg.lineHeight

/-! ### Text measurer (`getTextSize`, main.cpp 198-252) -/

structure MeasureState where
  maxWidth : ℚ
  currentLineWidth : ℚ
  totalHeight : ℚ
deriving DecidableEq, Repr

/-- The character walk of `getTextSize` (main.cpp 216-246).  `'\n'` commits
the current line and adds one scaled line height; `'\r'` is skipped; every
other character resolves its glyph with the `'?'` fallback (absent glyphs
contribute nothing) and, when a next character exists in the span, replaces
the lone advance by the provider's kerning-adjusted pair advance. -/
def measureLoop (fg : FontGeometry) (fs lh : ℚ) :
    List Char → MeasureState → MeasureState
  | [], st => st
  | c :: rest, st =>
    if c = '\n' then
      measureLoop fg fs lh rest
        { maxWidth := max st.maxWidth st.currentLineWidth
        , currentLineWidth := 0
        , totalHeight := st.totalHeight + lh }
    else if c = '\r' then
      measureLoop fg fs lh rest st
    else
      match resolveGlyph fg c with
      | none => measureLoop fg fs lh rest st
      | some g =>
        let advance : ℚ :=
          match rest with
          | [] => g.advance
          | next :: _ => fg.getAdvance g.advance c next
        measureLoop fg fs lh rest
          { st with currentLineWidth := st.currentLineWidth + fs * advance }

/-- Model of `getTextSize` (main.cpp 198-252): empty text returns `(0, getFontHeight)`;
otherwise walks the span and returns the ceilings of
`max maxWidth currentLineWidth` and of `totalHeight` (which starts at
`getFontHeight` and accumulates one scaled line height per `'\n'`). -/
def getTextSize (fg : FontGeometry) (text : List Char) : ℤ × ℤ :=
  match text with
  | [] => (0, getFontHeight)
  | c :: rest =>
    let st := measureLoop fg (fsScale fg) (scaledLineHeight fg) (c :: rest)
      { maxWidth := 0, currentLineWidth := 0, totalHeight := ((getFontHeight : ℤ) : ℚ) }
    (⌈max st.maxWidth st.currentLineWidth⌉, ⌈st.totalHeight⌉)

/-! ### Row layout callback (`layout_func`, main.cpp 427-438) -/

structure StbTexteditRow where
  x0 : ℚ
  x1 : ℚ
  baseline_y_delta : ℚ
  ymin : ℚ
  ymax : ℚ
  num_chars : ℤ
deriving DecidableEq, Repr

/-- Model of `layout_func` (main.cpp 427-438): returns early (leaving the row
untouched, modelled as `none`) when freetype was never initialised;
otherwise the whole remaining span is one row measured by `getTextSize`. -/
def layout_func (ft : Bool) (fg : FontGeometry) (s : List Char) (start_i : Nat) :
    Option StbTexteditRow :=
  if ft then
    let remaining := s.length - start_i
    some { x0 := 0
         , x1 := (((getTextSize fg (s.drop start_i)).1 : ℤ) : ℚ)
         , baseline_y_delta := ((getFontHeight : ℤ) : ℚ)
         , ymin := 0
         , ymax := ((getFontHeight : ℤ) : ℚ)
         , num_chars := (remaining : ℤ) }
  else none

/-- Model of `get_width_func` (main.cpp 126-132): 0 when freetype is absent, else the
measured width of the one-character string `{str[i], 0}` (viewed with length
1).  The out-of-range read `str[i]` for `i ≥ length` is the caller's
precondition in C; the model supplies an arbitrary default. -/
def get_width_func (ft : Bool) (fg : FontGeometry) (s : List Char) (i : Nat) : ℚ :=
  if ft then (((getTextSize fg [s.getD i '\x00']).1 : ℤ) : ℚ) else 0

/-! ### Quad builder (`createTextTexture`, main.cpp 262-424)

Only the geometric output is modelled: the list of emitted glyph quads
(with the pen position at emission) and the final pen position.  The GPU
buffer plumbing, vertex colors and `screenPxRange` are not part of any
claim. -/

structure GlyphQuad where
  penX : ℚ
  penY : ℚ
  pl : ℚ
  pb : ℚ
  pr : ℚ
  pt : ℚ
  uaL : ℚ
  uaB : ℚ
  uaR : ℚ
  uaT : ℚ
deriving DecidableEq, Repr

/-- Quad construction for one glyph (main.cpp 327-342): plane bounds scaled
by `fs` and offset by the pen `(x, y)` (with the `pb/pt` flip and the `+24`
baseline shift of lines 334-335), atlas bounds divided by the atlas
dimensions `(aw, ah)`. -/
def mkQuad (fs x y aw ah : ℚ) (g : Glyph) : GlyphQuad :=
  { penX := x
  , penY := y
  , pl := g.planeL * fs + x
  , pb := y - g.planeB * fs + 24
  , pr := g.planeR * fs + x
  , pt := y - g.planeT * fs + 24
  , uaL := g.atlasL / aw
  , uaB := g.atlasB / ah
  , uaR := g.atlasR / aw
  , uaT := g.atlasT / ah }

structure BuildState where
  x : ℚ
  y : ℚ
  quads : List GlyphQuad
deriving DecidableEq, Repr

/-- The character walk of `createTextTexture` (main.cpp 286-414).
`'\r'`: skipped.  `'\n'`: pen x reset to 0 (the literal 0 of line 294, not
the origin), pen y decreased by one scaled line height.  `' '`: advance by
the space advance, kerning-adjusted against the next character when one
exists; no quad.  `'\t'`: advance by `4 * (fs * spaceAdvance)`; no quad.
Anything else: resolve the glyph with the `'?'` fallback (skip entirely if
unresolved), emit one quad, and advance by the kerning-adjusted pair
advance — only when a next character exists (lines 406-413).
`sgAdv` is the advance of the space glyph dereferenced at line 271; in the
space branch the C++ passes an uninitialized `dAdvance` to `getAdvance`,
whose value only survives if the space glyph is missing — the model passes
`sgAdv`, which is indistinguishable whenever the space glyph is present. -/
def buildLoop (fg : FontGeometry) (fs sgAdv aw ah : ℚ) :
    List Char → BuildState → BuildState
  | [], st => st
  | c :: rest, st =>
    if c = '\r' then
      buildLoop fg fs sgAdv aw ah rest st
    else if c = '\n' then
      buildLoop fg fs sgAdv aw ah rest
        { st with x := 0, y := st.y - fs * fg.lineHeight }
    else if c = ' ' then
      let advance : ℚ :=
        match rest with
        | [] => sgAdv
        | next :: _ => fg.getAdvance sgAdv ' ' next
      buildLoop fg fs sgAdv aw ah rest { st with x := st.x + fs * advance }
    else if c = '\t' then
      buildLoop fg fs sgAdv aw ah rest { st with x := st.x + 4 * (fs * sgAdv) }
    else
      match resolveGlyph fg c with
      | none => buildLoop fg fs sgAdv aw ah rest st
      | some g =>
        let st' := { st with quads := st.quads ++ [mkQuad fs st.x st.y aw ah g] }
        match rest with
        | [] => st'
        | next :: _ =>
          buildLoop fg fs sgAdv aw ah rest
            { st' with x := st.x + fs * (fg.getAdvance g.advance c next) }

/-- Model of `createTextTexture` (main.cpp 262-424), geometric part.  Line 271
unconditionally dereferences the space glyph (`getGlyph(' ')->getAdvance()`),
so a font without a space glyph is undefined behaviour, modelled as `none`.
`(aw, ah)` are the atlas dimensions, `(offsetX, offsetY)` the pen origin. -/
def createTextTexture (fg : FontGeometry) (aw ah offsetX offsetY : ℚ)
    (strView : List Char) : Option BuildState :=
  match fg.glyph ' ' with
  | none => none
  | some sg =>
    some (buildLoop fg (fsScale fg) sg.advance aw ah strView
      { x := offsetX, y := offsetY, quads := [] })

/-- Trailing-advance reconciliation term: the measurer charges the final
character of a span its lone (un-kerned) glyph advance, while the quad
builder never advances the pen after emitting the final visible glyph
(the guard at main.cpp 406).  For a span ending in a resolvable visible
glyph this is the scaled lone advance of that glyph; otherwise 0. -/
def trailAdv (fg : FontGeometry) (fs : ℚ) : List Char → ℚ
  | [] => 0
  | [c] =>
    if c = ' ' ∨ c = '\r' ∨ c = '\n' ∨ c = '\t' then 0
    else
      match resolveGlyph fg c with
      | none => 0
      | some g => fs * g.advance
  | _ :: c :: rest => trailAdv fg fs (c :: rest)

/-! ### Concrete fixtures used by witnesses and counterexamples -/

/-- Space glyph of the test fonts: advance 1, degenerate bounds. -/
def gSpace : Glyph := ⟨1, 0, 0, 0, 0, 0, 0, 0, 0⟩

/-- Fallback `'?'` glyph of the test fonts: advance 2. -/
def gQm : Glyph := ⟨2, 0, 0, 0, 0, 0, 0, 0, 0⟩

/-- Letter glyph of the test fonts: advance 1, unit plane/atlas box. -/
def gOne : Glyph := ⟨1, 0, 0, 1, 1, 0, 0, 1, 1⟩

/-- Test font 1: only `' '` (advance 1) and `'?'` (advance 2) are mapped;
`ascenderY - descenderY = 3` so `fsScale = 8`; `lineHeight = 6`. -/
def cfg1 : FontGeometry :=
  { glyph := fun c => if c = ' ' then some gSpace else if c = '?' then some gQm else none
  , kerning := fun _ _ => none
  , ascenderY := 2
  , descenderY := -1
  , lineHeight := 6 }

/-- Test font 5: every character is mapped (space to `gSpace`, the rest to
`gOne`), no kerning; `fsScale = 8` and the scaled line height is 48. -/
def cfg5 : FontGeometry :=
  { glyph := fun c => if c = ' ' then some gSpace else some gOne
  , kerning := fun _ _ => none
  , ascenderY := 2
  , descenderY := -1
  , lineHeight := 6 }

/-- Test buffer holding "abc" with capacity 3. -/
def buf3 : Buffer := ⟨['a', 'b', 'c'], 3⟩

/-! ### Claims about the dynamic buffer -/

/-- Claim C2 (confirmed): `insert(pos, bytes, count)` with `pos > length`
fails with OutOfRange (`std::string::insert` throws `std::out_of_range`,
modelled as `Except.error`) and leaves the buffer unchanged — data,
length and capacity are those of the prior state, with no partial
mutation. -/
theorem C2_insert_out_of_range (buf : Buffer) (pos : Nat) (newtext : List Char) (num : Nat)
    (h : buf.data.length < pos) :
    insert_chars buf pos newtext num = .error .outOfRange
    ∧ afterInsert buf pos newtext num = buf := by
  constructor <;> simp [afterInsert, insert_chars, h]

/-- Witness for C2 at `buf3 = "abc"`, `pos = 4`. -/
theorem C2_insert_out_of_range_witness :
    buf3.data.length < 4
    ∧ (insert_chars buf3 4 ['x'] 1 = .error .outOfRange ∧ afterInsert buf3 4 ['x'] 1 = buf3) :=
  ⟨by simp [buf3], C2_insert_out_of_range buf3 4 ['x'] 1 (by simp [buf3])⟩

/-- Claim C3 (corrected): `delete(pos, count)` fails with OutOfRange (and
performs no mutation) only when `pos > length`; whenever `pos ≤ length` it
*succeeds*, erasing `min count (length - pos)` characters: for
`pos + count ≤ length` this shifts `[pos+count, length)` left by `count`
and sets `length -= count`, but for `pos ≤ length < pos + count` the count
is clamped (`std::string::erase` semantics) and the call still reports
success — contrary to the claim as stated. -/
theorem C3_delete_clamps (buf : Buffer) (pos num : Nat) :
    (buf.data.length < pos →
      delete_chars buf pos num = .error .outOfRange ∧ afterDelete buf pos num = buf)
    ∧ (pos ≤ buf.data.length →
      delete_chars buf pos num
        = .ok ⟨buf.data.take pos ++ buf.data.drop (pos + num), buf.capacity⟩
      ∧ (afterDelete buf pos num).data.length
        = buf.data.length - min num (buf.data.length - pos)) := by
  constructor
  · intro h
    constructor <;> simp [afterDelete, delete_chars, h]
  · intro h
    have h' : ¬ buf.data.length < pos := Nat.not_lt.mpr h
    constructor
    · simp [delete_chars, h']
    · simp [afterDelete, delete_chars, h', List.length_take, List.length_drop]
      omega

/-- Witness for C3 at `buf3 = "abc"`, `pos = 1`, `count = 2`. -/
theorem C3_delete_clamps_witness :
    (buf3.data.length < 1 →
      delete_chars buf3 1 2 = .error .outOfRange ∧ afterDelete buf3 1 2 = buf3)
    ∧ (1 ≤ buf3.data.length →
      delete_chars buf3 1 2
        = .ok ⟨buf3.data.take 1 ++ buf3.data.drop (1 + 2), buf3.capacity⟩
      ∧ (afterDelete buf3 1 2).data.length
        = buf3.data.length - min 2 (buf3.data.length - 1)) :=
  C3_delete_clamps buf3 1 2

/-- Counterexample to C3 as stated: on buffer "abc" with `pos = 1`,
`count = 5` we have `pos + count > length`, yet `delete_chars` does not
fail — it returns success and truncates the buffer to "a". -/
theorem C3_counterexample :
    1 + 5 > buf3.data.length
    ∧ delete_chars buf3 1 5 = .ok ⟨['a'], 3⟩ := by
  refine ⟨by simp [buf3], ?_⟩
  simp [delete_chars, buf3]

/-- Claim C4 (confirmed): for every buffer, every `pos ≤ length` and every
byte sequence, `insert(pos, bytes, |bytes|)` followed by
`delete(pos, |bytes|)` restores exactly the prior byte content (and hence
the prior length). -/
theorem C4_insert_delete_roundtrip (buf : Buffer) (pos : Nat) (bytes : List Char)
    (h : pos ≤ buf.data.length) :
    Except.map Buffer.data
      ((insert_chars buf pos bytes bytes.length).bind
        fun b => delete_chars b pos bytes.length)
      = Except.ok buf.data := by
  have hlen : (buf.data.take pos).length = pos := by
    simp [List.length_take]; omega
  have h' : ¬ buf.data.length < pos := Nat.not_lt.mpr h
  have e1 : ((buf.data.take pos ++ bytes) ++ buf.data.drop pos).take pos = buf.data.take pos := by
    rw [List.append_assoc]
    exact List.take_left' hlen
  have e2 : ((buf.data.take pos ++ bytes) ++ buf.data.drop pos).drop (pos + bytes.length)
      = buf.data.drop pos :=
    List.drop_left' (by simp [hlen])
  have h2 : ¬ ((buf.data.take pos ++ bytes) ++ buf.data.drop pos).length < pos := by
    simp only [List.length_append, hlen]
    omega
  simp [insert_chars, delete_chars, Except.bind, Except.map, h', h2, List.take_length,
    ← List.append_assoc, e1, e2]
  rw [min_eq_left h, if_neg (by omega)]

/-- Witness for C4 at `buf3 = "abc"`, `pos = 1`, `bytes = "xy"`. -/
theorem C4_insert_delete_roundtrip_witness :
    (1 ≤ buf3.data.length)
    ∧ Except.map Buffer.data
        ((insert_chars buf3 1 ['x', 'y'] (['x', 'y'] : List Char).length).bind
          fun b => delete_chars b 1 (['x', 'y'] : List Char).length)
        = Except.ok buf3.data :=
  ⟨by simp [buf3], C4_insert_delete_roundtrip buf3 1 ['x', 'y'] (by simp [buf3])⟩

/-- Height accumulation of the measurer walk: the running `totalHeight`
grows by exactly one `lh` per `'\n'` in the walked text. -/
lemma measure_totalHeight (fg : FontGeometry) (fs lh : ℚ) :
    ∀ (text : List Char) (st : MeasureState),
      (measureLoop fg fs lh text st).totalHeight
        = st.totalHeight + (text.count '\n' : ℚ) * lh := by
  intro text
  induction text with
  | nil => intro st; simp [measureLoop]
  | cons c rest ih =>
    intro st
    by_cases hn : c = '\n'
    · subst hn
      simp [measureLoop, ih, List.count_cons]
      ring
    · by_cases hr : c = '\r'
      · subst hr
        simp [measureLoop, ih, List.count_cons, hn]
      · rcases hres : resolveGlyph fg c with _ | g <;>
          simp [measureLoop, hn, hr, hres, ih, List.count_cons]

/-- Ceiling commutes with the two-line width maximum: taking per-line
ceilings first and then the maximum agrees with the source's order
(maximum first, one ceiling at the end). -/
lemma ceil_max_split (a b : ℚ) :
    max ⌈max 0 a⌉ ⌈max 0 b⌉ = ⌈max (max 0 a) b⌉ := by
  rw [← Int.ceil_mono.map_max]
  congr 1
  have h0 : (0 ⊔ a) ⊔ 0 = 0 ⊔ a := sup_eq_left.mpr le_sup_left
  rw [← sup_assoc, h0]

set_option maxHeartbeats 1600000 in
/-- Claim C5 (corrected): the final width is the ceiling of
`max maxWidth currentLineWidth` as claimed, but the final height is NOT
`line count × line height`: it is the ceiling of `getFontHeight() = 24`
(the hard-coded first-line contribution) plus one scaled metrics line
height per `'\n'`.  For buffer "ab\ncd" (when no kerning pair against
`'\n'` applies) the width does equal
`max (measure "ab").width (measure "cd").width`. -/
theorem C5_measure_size (fg : FontGeometry) (text : List Char)
    (hk : fg.kerning 'b' '\n' = none) :
    (getTextSize fg text).2
      = ⌈(24 : ℚ) + (text.count '\n' : ℚ) * scaledLineHeight fg⌉
    ∧ (getTextSize fg ['a', 'b', '\n', 'c', 'd']).1
      = max (getTextSize fg ['a', 'b']).1 (getTextSize fg ['c', 'd']).1 := by
  constructor
  · match text with
    | [] =>
      simp only [getTextSize, List.count_nil]
      norm_num [getFontHeight]
    | c :: rest =>
      have h := measure_totalHeight fg (fsScale fg) (scaledLineHeight fg) (c :: rest)
        { maxWidth := 0, currentLineWidth := 0, totalHeight := ((getFontHeight : ℤ) : ℚ) }
      simp only [getTextSize]
      rw [h]
      norm_num [getFontHeight]
  · rcases hga : fg.glyph 'a' with _ | ga <;>
    rcases hgb : fg.glyph 'b' with _ | gb <;>
    rcases hgc : fg.glyph 'c' with _ | gc <;>
    rcases hgd : fg.glyph 'd' with _ | gd <;>
    rcases hgq : fg.glyph '?' with _ | gq <;>
    simp only [getTextSize, measureLoop, resolveGlyph, FontGeometry.getAdvance,
      hga, hgb, hgc, hgd, hgq, hk, Option.getD_none, Option.getD_some, add_zero, zero_add] <;>
    first
      | rfl
      | exact (ceil_max_split _ _).symm

/-- Witness for C5 at the concrete font `cfg5` and buffer "ab\ncd". -/
theorem C5_measure_size_witness :
    cfg5.kerning 'b' '\n' = none
    ∧ ((getTextSize cfg5 ['a', 'b', '\n', 'c', 'd']).2
        = ⌈(24 : ℚ) + ((['a', 'b', '\n', 'c', 'd'] : List Char).count '\n' : ℚ) * scaledLineHeight cfg5⌉
      ∧ (getTextSize cfg5 ['a', 'b', '\n', 'c', 'd']).1
        = max (getTextSize cfg5 ['a', 'b']).1 (getTextSize cfg5 ['c', 'd']).1) :=
  ⟨rfl, C5_measure_size cfg5 ['a', 'b', '\n', 'c', 'd'] rfl⟩

/-- Counterexample to C5 as stated: with `cfg5` (scaled line height 48,
`getFontHeight = 24`) the measured height of "ab\ncd" is 72, which is
neither `2 × 48` (two scaled metrics line heights) nor `2 × 24` (two font
heights) — the height is not `line count × line height` under either
reading of "line height". -/
theorem C5_counterexample :
    (getTextSize cfg5 ['a', 'b', '\n', 'c', 'd']).2 = 72
    ∧ ⌈scaledLineHeight cfg5⌉ = 48
    ∧ getFontHeight = 24
    ∧ (72 : ℤ) ≠ 2 * 48
    ∧ (72 : ℤ) ≠ 2 * 24 := by
  refine ⟨?_, ?_, rfl, by decide, by decide⟩
  · simp [getTextSize, measureLoop, resolveGlyph, cfg5, gOne, gSpace, fsScale,
      scaledLineHeight, getFontHeight, FontGeometry.getAdvance]
    norm_num
  · norm_num [scaledLineHeight, fsScale, cfg5]

/-- Claim C9 (corrected): measuring an empty span returns width 0 and
height `getFontHeight() = 24` — a hard-coded constant, not a value taken
from the loaded font's metrics. -/
theorem C9_empty_measure (fg : FontGeometry) : getTextSize fg [] = (0, getFontHeight) := rfl

/-- Counterexample to C9 as stated: for `cfg5` the font metrics give a
(scaled) line height of 48, yet the measured height of the empty span is
the hard-coded 24 — the empty-span height is not taken from the font
metrics. -/
theorem C9_counterexample :
    (getTextSize cfg5 []).2 = 24
    ∧ ⌈scaledLineHeight cfg5⌉ = 48
    ∧ (getTextSize cfg5 []).2 ≠ ⌈scaledLineHeight cfg5⌉ := by
  refine ⟨rfl, ?_, ?_⟩
  · norm_num [scaledLineHeight, fsScale, cfg5]
  · have h2 : ⌈scaledLineHeight cfg5⌉ = 48 := by norm_num [scaledLineHeight, fsScale, cfg5]
    rw [show (getTextSize cfg5 []).2 = 24 from rfl, h2]
    decide

/-- Claim C6 (confirmed): for every `start_i ≤ length` (with freetype
loaded), `layout_func` returns the single-row metrics `x0 = 0`,
`x1 = measure(remaining span).width`, `ymin = 0`, `ymax = getFontHeight`
(the program's baseline-to-baseline height), `baseline_y_delta =
getFontHeight` (its line height), and `num_chars = length - start_i`. -/
theorem C6_layout_row (fg : FontGeometry) (s : List Char) (start_i : Nat)
    (h : start_i ≤ s.length) :
    layout_func true fg s start_i
      = some { x0 := 0
             , x1 := (((getTextSize fg (s.drop start_i)).1 : ℤ) : ℚ)
             , baseline_y_delta := ((getFontHeight : ℤ) : ℚ)
             , ymin := 0
             , ymax := ((getFontHeight : ℤ) : ℚ)
             , num_chars := (s.length : ℤ) - (start_i : ℤ) } := by
  simp [layout_func, Nat.cast_sub h]

/-- Witness for C6 at `cfg5`, buffer "ab", `start_i = 1`. -/
theorem C6_layout_row_witness :
    1 ≤ (['a', 'b'] : List Char).length
    ∧ layout_func true cfg5 ['a', 'b'] 1
      = some { x0 := 0
             , x1 := (((getTextSize cfg5 ((['a', 'b'] : List Char).drop 1)).1 : ℤ) : ℚ)
             , baseline_y_delta := ((getFontHeight : ℤ) : ℚ)
             , ymin := 0
             , ymax := ((getFontHeight : ℤ) : ℚ)
             , num_chars := ((['a', 'b'] : List Char).length : ℤ) - (1 : ℤ) } :=
  ⟨by decide, C6_layout_row cfg5 ['a', 'b'] 1 (by decide)⟩

/-- Claim C10 (confirmed): `get_width_func(str, n, i)` measures the single
character `str[i]` in isolation — the ceiling of `fsScale` times the lone
advance of its resolved glyph (with the `'?'` fallback) — and is
independent of the character at `i + 1`, so it never contains the pairwise
kerning adjustment the measurer and quad builder apply inside a span. -/
theorem C10_get_width (fg : FontGeometry) (s t : List Char) (i : Nat) (g : Glyph)
    (_hi : i < s.length)
    (hn : s.getD i '\x00' ≠ '\n') (hr : s.getD i '\x00' ≠ '\r')
    (hres : resolveGlyph fg (s.getD i '\x00') = some g)
    (hpos : 0 ≤ fsScale fg * g.advance)
    (ht : t.getD i '\x00' = s.getD i '\x00') :
    get_width_func true fg s i = ((⌈fsScale fg * g.advance⌉ : ℤ) : ℚ)
    ∧ get_width_func true fg t i = get_width_func true fg s i := by
  simp only [List.getD, List.get?_eq_getElem?] at hn hr hres ht
  constructor
  · simp [get_width_func, List.getD, getTextSize, measureLoop, hn, hr, hres, max_eq_right hpos]
  · simp [get_width_func, List.getD, ht]

/-- Witness for C10 at `cfg5`, buffers "ab" and "ax", `i = 0`. -/
theorem C10_get_width_witness :
    0 < (['a', 'b'] : List Char).length
    ∧ (get_width_func true cfg5 ['a', 'b'] 0 = ((⌈fsScale cfg5 * gOne.advance⌉ : ℤ) : ℚ)
      ∧ get_width_func true cfg5 ['a', 'x'] 0 = get_width_func true cfg5 ['a', 'b'] 0) :=
  ⟨by decide,
   C10_get_width cfg5 ['a', 'b'] ['a', 'x'] 0 gOne (by decide) (by decide) (by decide)
     rfl (by norm_num [fsScale, cfg5, gOne]) rfl⟩

/-- Claim C7 (confirmed): building "a\tb" emits exactly two quads — one
for `'a'` (pen at the origin) and one for `'b'` — the tab contributing no
quad; the pen x-advance between the two quads is
`fsScale * advance('a') + 4 * (fsScale * advance(' '))` (assuming no
kerning pair `('a', '\t')`), visible in the second quad's pen position. -/
theorem C7_tab_quads (fg : FontGeometry) (sg ga gb : Glyph) (aw ah ox oy : ℚ)
    (hsg : fg.glyph ' ' = some sg) (hga : fg.glyph 'a' = some ga)
    (hgb : fg.glyph 'b' = some gb) (hk : fg.kerning 'a' '\t' = none) :
    (createTextTexture fg aw ah ox oy ['a', '\t', 'b']).map BuildState.quads
      = some [ mkQuad (fsScale fg) ox oy aw ah ga
             , mkQuad (fsScale fg) (ox + fsScale fg * ga.advance + 4 * (fsScale fg * sg.advance))
                 oy aw ah gb ] := by
  simp [createTextTexture, buildLoop, resolveGlyph, FontGeometry.getAdvance, hsg, hga, hgb, hk]

/-- Witness for C7 at the concrete font `cfg5` from origin (0,0). -/
theorem C7_tab_quads_witness :
    cfg5.glyph ' ' = some gSpace
    ∧ (createTextTexture cfg5 1 1 0 0 ['a', '\t', 'b']).map BuildState.quads
      = some [ mkQuad (fsScale cfg5) 0 0 1 1 gOne
             , mkQuad (fsScale cfg5) (0 + fsScale cfg5 * gOne.advance + 4 * (fsScale cfg5 * gSpace.advance))
                 0 1 1 gOne ] :=
  ⟨rfl, C7_tab_quads cfg5 gSpace gOne gOne 1 1 0 0 rfl rfl rfl rfl⟩

/-- Without a `'\n'` in the walked text the measurer never commits a line,
so `maxWidth` is left untouched. -/
lemma measure_maxWidth_no_newline (fg : FontGeometry) (fs lh : ℚ) :
    ∀ (text : List Char), '\n' ∉ text →
    ∀ (st : MeasureState), (measureLoop fg fs lh text st).maxWidth = st.maxWidth := by
  intro text
  induction text with
  | nil => intro _ st; simp [measureLoop]
  | cons c rest ih =>
    intro hmem st
    rw [List.mem_cons] at hmem
    push_neg at hmem
    obtain ⟨hne, hrest⟩ := hmem
    have hn : c ≠ '\n' := fun e => hne e.symm
    by_cases hr : c = '\r'
    · simp [measureLoop, hn, hr, ih hrest]
    · rcases hres : resolveGlyph fg c with _ | g <;>
        simp [measureLoop, hn, hr, hres, ih hrest]

/-- Pen agreement along a newline- and tab-free walk: the measurer's
accumulated line width equals the builder's pen displacement plus the
trailing-advance term (the builder does not advance the pen after the
final visible glyph; every interior step performs the identical
kerning-adjusted computation in both walks). -/
lemma measure_build_pen (fg : FontGeometry) (sg : Glyph) (fs lh aw ah : ℚ)
    (hsg : fg.glyph ' ' = some sg) :
    ∀ (text : List Char), (∀ c ∈ text, c ≠ '\n' ∧ c ≠ '\t') →
    ∀ (stm : MeasureState) (stb : BuildState),
      (measureLoop fg fs lh text stm).currentLineWidth
        = stm.currentLineWidth
          + ((buildLoop fg fs sg.advance aw ah text stb).x - stb.x)
          + trailAdv fg fs text := by
  intro text
  induction text with
  | nil => intro _ stm stb; simp [measureLoop, buildLoop, trailAdv]
  | cons c rest ih =>
    intro hok stm stb
    have hc := hok c (List.mem_cons_self c rest)
    obtain ⟨hn, htab⟩ := hc
    have hrest : ∀ x ∈ rest, x ≠ '\n' ∧ x ≠ '\t' :=
      fun x hx => hok x (List.mem_cons_of_mem c hx)
    by_cases hr : c = '\r'
    · subst hr
      match rest with
      | [] => simp [measureLoop, buildLoop, trailAdv]
      | c' :: rest' =>
        have := ih hrest stm stb
        simpa [measureLoop, buildLoop, trailAdv] using this
    · by_cases hsp : c = ' '
      · subst hsp
        have hres : resolveGlyph fg ' ' = some sg := by simp [resolveGlyph, hsg]
        match rest with
        | [] =>
          simp [measureLoop, buildLoop, trailAdv, hres, hn, hr]
        | c' :: rest' =>
          have hih := ih hrest
            { stm with currentLineWidth :=
                stm.currentLineWidth + fs * (fg.getAdvance sg.advance ' ' c') }
            { stb with x := stb.x + fs * (fg.getAdvance sg.advance ' ' c') }
          simp only [measureLoop, buildLoop, trailAdv, hres, hn, hr, if_false, if_true,
            reduceIte] at hih ⊢
          simp [hres, hih]
          ring
      · rcases hres : resolveGlyph fg c with _ | g
        · match rest with
          | [] => simp [measureLoop, buildLoop, trailAdv, hres, hn, hr, hsp, htab]
          | c' :: rest' =>
            have hm : measureLoop fg fs lh (c :: c' :: rest') stm
                = measureLoop fg fs lh (c' :: rest') stm := by
              simp [measureLoop, hn, hr, hsp, htab, hres]
            have hb : buildLoop fg fs sg.advance aw ah (c :: c' :: rest') stb
                = buildLoop fg fs sg.advance aw ah (c' :: rest') stb := by
              simp [buildLoop, hn, hr, hsp, htab, hres]
            have htr : trailAdv fg fs (c :: c' :: rest') = trailAdv fg fs (c' :: rest') := by
              simp [trailAdv]
            rw [hm, hb, htr]
            exact ih hrest stm stb
        · match rest with
          | [] => simp [measureLoop, buildLoop, trailAdv, hres, hn, hr, hsp, htab]
          | c' :: rest' =>
            have hih := ih hrest
              { stm with currentLineWidth :=
                  stm.currentLineWidth + fs * (fg.getAdvance g.advance c c') }
              { stb with
                  x := stb.x + fs * (fg.getAdvance g.advance c c')
                , quads := stb.quads ++ [mkQuad fs stb.x stb.y aw ah g] }
            simp [measureLoop, buildLoop, trailAdv, hres, hn, hr, hsp, htab] at hih ⊢
            rw [hih]
            ring

/-- Claim C1 (corrected): for spans with no `'\n'` and no `'\t'` (and a
loaded space glyph), walked from pen origin x = 0, the measurer's and quad
builder's pen arithmetic agree: `measure(span).width` equals the ceiling
of `max 0 (final pen x + trailing advance)`, where the trailing-advance
term (`trailAdv`) reconciles the builder not advancing the pen after the
final visible glyph.  For spans containing a tab the two computations
differ (see `C1_counterexample`). -/
theorem C1_pen_agreement (fg : FontGeometry) (sg : Glyph) (aw ah oy : ℚ)
    (text : List Char) (st : BuildState)
    (hsg : fg.glyph ' ' = some sg)
    (hok : ∀ c ∈ text, c ≠ '\n' ∧ c ≠ '\t')
    (hbuild : createTextTexture fg aw ah 0 oy text = some st) :
    (getTextSize fg text).1 = ⌈max 0 (st.x + trailAdv fg (fsScale fg) text)⌉ := by
  rw [createTextTexture, hsg] at hbuild
  have hst := Option.some.inj hbuild
  subst hst
  match text with
  | [] =>
    simp [getTextSize, buildLoop, trailAdv]
  | c :: rest =>
    have hnl : '\n' ∉ c :: rest := by
      intro hmem
      exact ((hok '\n' hmem).1 rfl)
    have hmax := measure_maxWidth_no_newline fg (fsScale fg) (scaledLineHeight fg)
      (c :: rest) hnl
      { maxWidth := 0, currentLineWidth := 0, totalHeight := ((getFontHeight : ℤ) : ℚ) }
    have hpen := measure_build_pen fg sg (fsScale fg) (scaledLineHeight fg) aw ah hsg
      (c :: rest) hok
      { maxWidth := 0, currentLineWidth := 0, totalHeight := ((getFontHeight : ℤ) : ℚ) }
      { x := 0, y := oy, quads := [] }
    simp only [getTextSize]
    rw [hmax, hpen]
    norm_num

/-- Witness for C1 at `cfg1` and the single-character span "a". -/
theorem C1_pen_agreement_witness :
    cfg1.glyph ' ' = some gSpace
    ∧ (getTextSize cfg1 ['a']).1
      = ⌈max 0 ((buildLoop cfg1 (fsScale cfg1) gSpace.advance 1 1 ['a']
            { x := 0, y := 0, quads := [] }).x + trailAdv cfg1 (fsScale cfg1) ['a'])⌉ :=
  ⟨rfl,
   C1_pen_agreement cfg1 gSpace 1 1 0 ['a']
     (buildLoop cfg1 (fsScale cfg1) gSpace.advance 1 1 ['a'] { x := 0, y := 0, quads := [] })
     rfl (by decide) (by simp [createTextTexture, cfg1])⟩

/-- Counterexample to C1 as stated: on the span "\t" from origin (0,0)
with font `cfg1` (space advance 1, `'?'` advance 2, `fsScale = 8`) the
measurer reports width 16 (it resolves the tab through the `'?'`
fallback), while the builder emits no quad at all and leaves its pen at
x = 32 (it advances 4 × the scaled space advance) — so the final pen
position, with no quad edge to reconcile against, does not equal the
measured width. -/
theorem C1_counterexample :
    (getTextSize cfg1 ['\t']).1 = 16
    ∧ (createTextTexture cfg1 1 1 0 0 ['\t']).map (fun st => (st.x, st.quads.length))
      = some ((32 : ℚ), 0)
    ∧ (16 : ℤ) ≠ ⌈(32 : ℚ)⌉ := by
  refine ⟨?_, ?_, ?_⟩
  · simp [getTextSize, measureLoop, resolveGlyph, cfg1, gQm, gSpace, fsScale,
      scaledLineHeight, getFontHeight]
    norm_num
  · simp [createTextTexture, buildLoop, resolveGlyph, cfg1, gQm, gSpace, fsScale]
    norm_num
  · norm_num

/-- Claim C8 (confirmed): for a character (other than the control
characters and space/tab, which never reach the lookup) whose glyph is
absent, both the measurer and the quad builder substitute the `'?'`
fallback glyph — charging its lone advance, since the pair-advance lookup
for the unmapped character leaves the advance unchanged — and when `'?'`
is also absent the character contributes zero width, no quad and no pen
movement; in every case both walks simply continue with the rest of the
span (they are total functions — no failure, no abort). -/
theorem C8_glyph_fallback (fg : FontGeometry) (fs lh sa aw ah : ℚ) (c : Char)
    (rest : List Char) (stm : MeasureState) (stb : BuildState) (q : Glyph)
    (hn : c ≠ '\n') (hr : c ≠ '\r') (hs : c ≠ ' ') (ht : c ≠ '\t')
    (hc : fg.glyph c = none) :
    (fg.glyph '?' = some q →
      measureLoop fg fs lh (c :: rest) stm
        = measureLoop fg fs lh rest
            { stm with currentLineWidth := stm.currentLineWidth + fs * q.advance }
      ∧ buildLoop fg fs sa aw ah (c :: rest) stb
        = buildLoop fg fs sa aw ah rest
            { x := stb.x + (match rest with | [] => 0 | _ :: _ => fs * q.advance)
            , y := stb.y
            , quads := stb.quads ++ [mkQuad fs stb.x stb.y aw ah q] })
    ∧ (fg.glyph '?' = none →
      measureLoop fg fs lh (c :: rest) stm = measureLoop fg fs lh rest stm
      ∧ buildLoop fg fs sa aw ah (c :: rest) stb = buildLoop fg fs sa aw ah rest stb) := by
  constructor
  · intro hq
    have hres : resolveGlyph fg c = some q := by simp [resolveGlyph, hc, hq]
    constructor
    · match rest with
      | [] => simp [measureLoop, hn, hr, hres, FontGeometry.getAdvance, hc]
      | c' :: rest' => simp [measureLoop, hn, hr, hres, FontGeometry.getAdvance, hc]
    · match rest with
      | [] => simp [buildLoop, hn, hr, hs, ht, hres, FontGeometry.getAdvance, hc]
      | c' :: rest' => simp [buildLoop, hn, hr, hs, ht, hres, FontGeometry.getAdvance, hc]
  · intro hq
    have hres : resolveGlyph fg c = none := by simp [resolveGlyph, hc, hq]
    constructor
    · simp [measureLoop, hn, hr, hres]
    · simp [buildLoop, hn, hr, hs, ht, hres]

/-- Witness for C8 at `cfg1` (no glyph for `'a'`, `'?'` mapped). -/
theorem C8_glyph_fallback_witness :
    cfg1.glyph 'a' = none
    ∧ ((cfg1.glyph '?' = some gQm →
        measureLoop cfg1 8 48 ['a'] { maxWidth := 0, currentLineWidth := 0, totalHeight := 24 }
          = measureLoop cfg1 8 48 []
              { maxWidth := 0, currentLineWidth := 0 + 8 * gQm.advance, totalHeight := 24 }
        ∧ buildLoop cfg1 8 1 1 1 ['a'] { x := 0, y := 0, quads := [] }
          = buildLoop cfg1 8 1 1 1 []
              { x := 0 + (match ([] : List Char) with | [] => 0 | _ :: _ => 8 * gQm.advance)
              , y := 0
              , quads := [] ++ [mkQuad 8 0 0 1 1 gQm] })
      ∧ (cfg1.glyph '?' = none →
        measureLoop cfg1 8 48 ['a'] { maxWidth := 0, currentLineWidth := 0, totalHeight := 24 }
          = measureLoop cfg1 8 48 [] { maxWidth := 0, currentLineWidth := 0, totalHeight := 24 }
        ∧ buildLoop cfg1 8 1 1 1 ['a'] { x := 0, y := 0, quads := [] }
          = buildLoop cfg1 8 1 1 1 [] { x := 0, y := 0, quads := [] })) :=
  ⟨rfl,
   C8_glyph_fallback cfg1 8 48 1 1 1 'a' []
     { maxWidth := 0, currentLineWidth := 0, totalHeight := 24 }
     { x := 0, y := 0, quads := [] } gQm
     (by decide) (by decide) (by decide) (by decide) rfl⟩
